import Mathlib

set_option maxRecDepth 16384

/-!
Shallow embedding of `src/ScriptGenerator.py` (FullLSL): an LLSD-style XML
schema parser and an LSL script generator used as a syntax-highlighting
fixture.  Python dictionaries are modelled as insertion-ordered association
lists (unique keys are guaranteed by Python and stated as hypotheses where
needed); Python exceptions are modelled by `Except PyErr`.
-/

/-- Python exceptions the embedded code can raise. -/
inductive PyErr where
  | attributeError
  | typeError
  | valueError
deriving DecidableEq

/-- Typed value tree produced by the parser (`parse_value`).  `real` stores
the source text of the float literal: no claim depends on the numeric value
of a real, only on whether coercion succeeds.  `pyNone` is Python `None`
(the raw text of an element without text under an unrecognized tag). -/
inductive Value where
  | str (s : String)
  | int (n : Int)
  | real (t : String)
  | seq (l : List Value)
  | map (l : List (String × Value))
  | pyNone

/-- A symbol's attribute mapping (a Python dict from attribute name to value). -/
abbrev Item := List (String × Value)

/-- Top-level parse result: the fixed three-section dictionary built by
`parse_llsd_xml` and consumed by `generate_lsl_script`. -/
structure Schema where
  constants : List (String × Item)
  events : List (String × Item)
  functions : List (String × Item)

/-- Python `d.get(k)` on an insertion-ordered dict. -/
def pyGet (d : List (String × α)) (k : String) : Option α :=
  (d.find? (fun p => p.1 == k)).map (fun p => p.2)

/-- Python `d[k] = v`: replaces the value in place if the key exists,
otherwise appends the new entry. -/
def dictInsert (d : List (String × α)) (k : String) (v : α) : List (String × α) :=
  if d.any (fun p => p.1 == k) then
    d.map (fun p => if p.1 == k then (k, v) else p)
  else d ++ [(k, v)]

/-- Python `sep.join(parts)`. -/
def joinSep (sep : String) : List String → String
  | [] => ""
  | [x] => x
  | x :: xs => x ++ sep ++ joinSep sep xs

/-- Whether an `Except` value is a success. -/
def exOk : Except ε α → Bool
  | .ok _ => true
  | .error _ => false

/-- Strip leading and trailing whitespace, as Python numeric coercion does. -/
def stripWS (l : List Char) : List Char :=
  ((l.dropWhile Char.isWhitespace).reverse.dropWhile Char.isWhitespace).reverse

/-- Value of a run of decimal digits. -/
def digitsVal (ds : List Char) : Nat :=
  ds.foldl (fun acc c => 10 * acc + (c.toNat - 48)) 0

/-- Python `int(s)` on base-10 string literals: surrounding whitespace and an
optional sign are accepted and the digit run must be nonempty.  (Unicode
digits and `_` digit separators, which CPython also accepts, are not
modelled.) -/
def pyInt (s : String) : Option Int :=
  let l := stripWS s.data
  let p : Int × List Char :=
    match l with
    | '+' :: rest => (1, rest)
    | '-' :: rest => (-1, rest)
    | rest => (1, rest)
  if !p.2.isEmpty && p.2.all Char.isDigit then some (p.1 * digitsVal p.2) else none

/-- Exponent part of a Python float literal: optional sign then digits. -/
def expBody (l : List Char) : Bool :=
  let l' : List Char :=
    match l with
    | '+' :: r => r
    | '-' :: r => r
    | r => r
  !l'.isEmpty && l'.all Char.isDigit

/-- Body of a Python float literal after the optional sign:
`inf`/`infinity`/`nan` (case-insensitive) or a decimal mantissa with
optional fraction and exponent. -/
def floatBody (l : List Char) : Bool :=
  let lower := l.map Char.toLower
  if lower = ['i', 'n', 'f'] ∨ lower = ['i', 'n', 'f', 'i', 'n', 'i', 't', 'y'] ∨
      lower = ['n', 'a', 'n'] then true
  else
    let intPart := l.takeWhile Char.isDigit
    let rest1 := l.dropWhile Char.isDigit
    let p : List Char × List Char :=
      match rest1 with
      | '.' :: r => (r.takeWhile Char.isDigit, r.dropWhile Char.isDigit)
      | r => ([], r)
    if intPart.isEmpty && p.1.isEmpty then false
    else match p.2 with
      | [] => true
      | 'e' :: r => expBody r
      | 'E' :: r => expBody r
      | _ => false

/-- Python `float(s)` acceptance (validity only; the numeric value is never
needed).  `_` digit separators are not modelled. -/
def isPyFloat (s : String) : Bool :=
  match stripWS s.data with
  | '+' :: r => floatBody r
  | '-' :: r => floatBody r
  | r => floatBody r

/-- Whether Python `float(t)` is falsy (equal to `0.0`): the sign is ignored
and every mantissa digit must be `0`.  Exponent underflow to zero is not
modelled; `inf`/`nan` are truthy. -/
def isZeroFloatText (s : String) : Bool :=
  let l : List Char :=
    match stripWS s.data with
    | '+' :: r => r
    | '-' :: r => r
    | r => r
  let mant := l.takeWhile (fun c => c.isDigit || c = '.')
  (l.all fun c => c.isDigit || c = '.' || c = 'e' || c = 'E' || c = '+' || c = '-') &&
    (mant.filter Char.isDigit).all (· = '0')

/-- Python truthiness of a parsed value. -/
def pyTruthy : Value → Bool
  | .str s => !s.isEmpty
  | .int n => n != 0
  | .real t => !isZeroFloatText t
  | .seq l => !l.isEmpty
  | .map l => !l.isEmpty
  | .pyNone => false

/-- A single-quote character as a string (Python repr delimiter). -/
def pyQuote : String := String.singleton (Char.ofNat 39)

mutual

/-- Python `repr` of a value, used by `str()` on containers.  Strings are
rendered between single quotes; CPython's quote choice and escaping rules
are not modelled (no claim exercises container-typed or float-typed text
interpolation). -/
def pyRepr : Value → String
  | .str s => pyQuote ++ s ++ pyQuote
  | .int n => toString n
  | .real t => t
  | .seq l => "[" ++ joinSep ", " (pyReprList l) ++ "]"
  | .map l => "\x7b" ++ joinSep ", " (pyReprPairs l) ++ "\x7d"
  | .pyNone => "None"

/-- Reprs of the elements of a sequence. -/
def pyReprList : List Value → List String
  | [] => []
  | v :: rest => pyRepr v :: pyReprList rest

/-- Reprs of the entries of a mapping. -/
def pyReprPairs : List (String × Value) → List String
  | [] => []
  | (k, v) :: rest => (pyQuote ++ k ++ pyQuote ++ ": " ++ pyRepr v) :: pyReprPairs rest

end

/-- Python `str()` of a value, as used when an attribute is interpolated
into an f-string.  `str` of a float is its repr, modelled by the stored
source text. -/
def pyStr : Value → String
  | .str s => s
  | v => pyRepr v

/-- Python `s.startswith(pre)`, over the character lists. -/
def pyStarts (s pre : String) : Bool := pre.data.isPrefixOf s.data

/-- Python `s.replace(old, new)` over character lists: each non-overlapping
occurrence is replaced, scanning left to right. -/
def replaceChars (pat rep : List Char) : List Char → List Char
  | [] => []
  | c :: rest =>
    if h : ¬pat.isEmpty ∧ pat.isPrefixOf (c :: rest) then
      rep ++ replaceChars pat rep (List.drop pat.length (c :: rest))
    else
      c :: replaceChars pat rep rest
termination_by l => l.length
decreasing_by
  · simp only [List.length_drop, List.length_cons]
    have : ¬pat.isEmpty := h.1
    have : pat.length ≠ 0 := by
      intro h0
      exact this (by simpa [List.isEmpty_iff, List.length_eq_zero] using h0)
    omega
  · simp

/-- Normalization of a constant's `value` text (`ScriptGenerator.py` lines
137-144): a value starting with the hex prefix goes through the identity
`replace('0x', '0x')`; otherwise integer coercion is attempted with a
quoted-string fallback.  The generator computes this and then discards it. -/
def normalizeConstValue (v : String) : String :=
  if pyStarts v "0x" then
    String.mk (replaceChars "0x".data "0x".data v.data)
  else
    match pyInt v with
    | some n => toString n
    | none => "\"" ++ v ++ "\""

/-- Variable picked for a constant's declared `type` (lines 147-160 if/elif
chain; there is no `list` branch and anything unrecognized falls back to
`i`). -/
def constTypeVar : Value → String
  | .str "integer" => "i"
  | .str "float" => "f"
  | .str "string" => "s"
  | .str "key" => "k"
  | .str "vector" => "v"
  | .str "rotation" => "r"
  | _ => "i"

/-- Variable picked for a function argument's declared `type` (lines
178-193). -/
def argTypeVar : Value → String
  | .str "integer" => "i"
  | .str "float" => "f"
  | .str "string" => "s"
  | .str "key" => "k"
  | .str "vector" => "v"
  | .str "rotation" => "r"
  | .str "list" => "l"
  | _ => "i"

/-- Variable picked for a function's `return` type in the non-`void` case
(lines 202-217). -/
def retTypeVar : Value → String
  | .str "integer" => "i"
  | .str "float" => "f"
  | .str "string" => "s"
  | .str "key" => "k"
  | .str "vector" => "v"
  | .str "rotation" => "r"
  | .str "list" => "l"
  | _ => "i"

/-- An assignment statement line of the activation body. -/
def assignLine (v n : String) : String := "        " ++ v ++ "=" ++ n ++ ";"

/-- The statement emitted for one constant (lines 133-160): the `value`
attribute must be a string because Python calls `.startswith` on it
(anything else raises `AttributeError`); its normalization is computed and
discarded, and the emitted assignment references only the constant's name
and type. -/
def constLine (name : String) (cd : Item) : Except PyErr String :=
  let ct := (pyGet cd "type").getD (.str "integer")
  match (pyGet cd "value").getD (.str "0") with
  | .str v =>
    let _norm := normalizeConstValue v
    .ok (assignLine (constTypeVar ct) name)
  | _ => .error .attributeError

/-- The constant-assignment statements, one per entry of `constants`, in
insertion order (loop at line 133). -/
def constLines : List (String × Item) → Except PyErr (List String)
  | [] => .ok []
  | (n, cd) :: rest => do
    let l ← constLine n cd
    let ls ← constLines rest
    .ok (l :: ls)

/-- Parameters contributed by the entries of one argument mapping: each
parameter's attribute value must itself be a mapping (Python calls `.get` on
it), and the declared type defaults to `integer` (lines 89-91). -/
def paramsOfPairs : List (String × Value) → Except PyErr (List (String × Value))
  | [] => .ok []
  | (n, .map pd) :: rest => do
    let more ← paramsOfPairs rest
    .ok ((n, (pyGet pd "type").getD (.str "integer")) :: more)
  | (_, _) :: _ => .error .attributeError

/-- Parameters of an `arguments` sequence: each element must be a mapping
(Python calls `.items()` on it, line 89). -/
def paramsOfArgs : List Value → Except PyErr (List (String × Value))
  | [] => .ok []
  | .map pairs :: rest => do
    let ps ← paramsOfPairs pairs
    let more ← paramsOfArgs rest
    .ok (ps ++ more)
  | _ :: _ => .error .attributeError

/-- `get_event_parameters` (lines 84-92).  A missing `arguments` yields no
parameters.  Iterating a non-sequence raises: an empty string or mapping
iterates zero times, a nonempty one reaches `.items()` on a non-dict
(`AttributeError`), and a number or `None` is not iterable (`TypeError`). -/
def get_event_parameters (event_data : Item) : Except PyErr (List (String × Value)) :=
  match pyGet event_data "arguments" with
  | none => .ok []
  | some (.seq l) => paramsOfArgs l
  | some (.str s) => if s.isEmpty then .ok [] else .error .attributeError
  | some (.map l) => if l.isEmpty then .ok [] else .error .attributeError
  | some _ => .error .typeError

/-- Argument variables contributed by one argument mapping (lines 175-193):
each argument's attribute value must be a mapping, and its declared type
picks the variable. -/
def argVarsPairs : List (String × Value) → Except PyErr (List String)
  | [] => .ok []
  | (_, .map ad) :: rest => do
    let more ← argVarsPairs rest
    .ok (argTypeVar ((pyGet ad "type").getD (.str "integer")) :: more)
  | (_, _) :: _ => .error .attributeError

/-- Argument variables of an `arguments` sequence: each element must be a
mapping (line 175). -/
def argVarsOfArgs : List Value → Except PyErr (List String)
  | [] => .ok []
  | .map pairs :: rest => do
    let vs ← argVarsPairs pairs
    let more ← argVarsOfArgs rest
    .ok (vs ++ more)
  | _ :: _ => .error .attributeError

/-- Iteration of a truthy `arguments` value (line 174): sequences yield
their elements; a truthy string or mapping reaches `.items()` on a non-dict;
numbers and `None` are not iterable. -/
def argVarsOf : Value → Except PyErr (List String)
  | .seq l => argVarsOfArgs l
  | .str _ => .error .attributeError
  | .map _ => .error .attributeError
  | _ => .error .typeError

/-- Lines 200-217: a standalone call statement for `void`, otherwise an
assignment into the return type's variable. -/
def retLine (rt : Value) (call : String) : String :=
  match rt with
  | .str "void" => "        " ++ call ++ ";"
  | _ => assignLine (retTypeVar rt) call

/-- The statement emitted for one function (lines 168-217): the call's
arguments come from the truthy `arguments` attribute (a falsy or missing one
yields an empty argument list without being iterated). -/
def funcLine (name : String) (fd : Item) : Except PyErr String := do
  let rt := (pyGet fd "return").getD (.str "integer")
  let call ←
    match pyGet fd "arguments" with
    | some args =>
      if pyTruthy args then do
        let vs ← argVarsOf args
        pure (name ++ "(" ++ joinSep ", " vs ++ ")")
      else pure (name ++ "()")
    | none => pure (name ++ "()")
  pure (retLine rt call)

/-- The function-call statements, one per entry of `functions`, in insertion
order (loop at line 168). -/
def funcLines : List (String × Item) → Except PyErr (List String)
  | [] => .ok []
  | (n, fd) :: rest => do
    let l ← funcLine n fd
    let ls ← funcLines rest
    .ok (l :: ls)

/-- The two fixed built-in constant assignments (lines 163-164). -/
def builtinLines : List String :=
  ["        r=ZERO_ROTATION;", "        v=ZERO_VECTOR;"]

/-- Body of the activation event `touch_start` (lines 131-217): constant
assignments, the two built-in assignments, a blank line, then the function
calls. -/
def activationBody (data : Schema) : Except PyErr (List String) := do
  let cs ← constLines data.constants
  let fs ← funcLines data.functions
  .ok (cs ++ builtinLines ++ [""] ++ fs)

/-- One event block (lines 115-223): a header with the comma-separated
`type name` parameter list, an opening brace, the body (the activation body
for `touch_start`, a single blank-indent line otherwise), a closing brace
and an empty separator line. -/
def eventBlock (data : Schema) (name : String) (ed : Item) : Except PyErr (List String) := do
  let params ← get_event_parameters ed
  let pstr := joinSep ", " (params.map (fun p => pyStr p.2 ++ " " ++ p.1))
  let body ← if name == "touch_start" then activationBody data else pure ["        "]
  .ok (("    " ++ name ++ "(" ++ pstr ++ ")") :: "    \x7b" :: (body ++ ["    \x7d", ""]))

/-- The concatenated event blocks, one per entry of `events`, in insertion
order (loop at line 115). -/
def eventBlocks (data : Schema) : List (String × Item) → Except PyErr (List String)
  | [] => .ok []
  | (n, ed) :: rest => do
    let b ← eventBlock data n ed
    let bs ← eventBlocks data rest
    .ok (b ++ bs)

/-- The fixed variable-declaration preamble (lines 100-108). -/
def preambleLines : List String :=
  ["float f;", "integer i;", "key k;", "list l;", "quaternion q;",
   "rotation r;", "string s;", "vector v;", ""]

/-- All lines emitted by `generate_lsl_script` (lines 97-225). -/
def generateLines (data : Schema) : Except PyErr (List String) := do
  let evs ← eventBlocks data data.events
  .ok (preambleLines ++ ["default", "\x7b"] ++ evs ++ ["\x7d"])

/-- `generate_lsl_script` (lines 94-227): the emitted line sequence joined
with single newlines.  A Python exception becomes an `Except.error`. -/
def generate_lsl_script (data : Schema) : Except PyErr String := do
  let ls ← generateLines data
  .ok (joinSep "\n" ls)

/-- A parsed XML element: tag, text (`none` for an element without text, as
in ElementTree) and child elements.  Reading and XML-parsing the file
(`ET.parse`, line 7) is I/O outside the embedded core; a malformed document
fails there and never reaches this model. -/
inductive XEl where
  | mk (tag : String) (text : Option String) (children : List XEl)

/-- Tag of an element. -/
def XEl.tag : XEl → String
  | .mk t _ _ => t

/-- Text of an element. -/
def XEl.text : XEl → Option String
  | .mk _ t _ => t

/-- Children of an element. -/
def XEl.children : XEl → List XEl
  | .mk _ _ c => c

/-- Coercion of an `integer` element's text (line 74): falsy (missing or
empty) text yields `0`; otherwise Python `int` raises `ValueError` on a
non-numeric literal. -/
def parseIntText : Option String → Except PyErr Value
  | none => .ok (.int 0)
  | some t =>
    if t == "" then .ok (.int 0)
    else match pyInt t with
      | some n => .ok (.int n)
      | none => .error .valueError

/-- Coercion of a `real` element's text (line 76): falsy text yields `0.0`;
otherwise Python `float` raises `ValueError` on a non-numeric literal. -/
def parseRealText : Option String → Except PyErr Value
  | none => .ok (.real "0.0")
  | some t =>
    if t == "" then .ok (.real "0.0")
    else if isPyFloat t then .ok (.real t) else .error .valueError

/-- An `integer` element's text is empty or a valid numeral. -/
def intTextGood : Option String → Bool
  | none => true
  | some t => t == "" || (pyInt t).isSome

/-- A `real` element's text is empty or a valid float literal. -/
def realTextGood : Option String → Bool
  | none => true
  | some t => t == "" || isPyFloat t

mutual

/-- `parse_value` (lines 69-82): dispatch on the element tag.  `string`
collapses missing text to the empty string, `integer` and `real` coerce
nonempty text (raising `ValueError` on bad numerals, as Python `int`/`float`
do), `array` and `map` recurse, and any other tag passes the raw text
through. -/
def parse_value : XEl → Except PyErr Value
  | .mk tag text children =>
    if tag == "string" then .ok (.str (text.getD ""))
    else if tag == "integer" then parseIntText text
    else if tag == "real" then parseRealText text
    else if tag == "array" then do
      let vs ← parse_value_list children
      .ok (.seq vs)
    else if tag == "map" then do
      let it ← parse_item_pairs children []
      .ok (.map it)
    else
      match text with
      | some t => .ok (.str t)
      | none => .ok .pyNone

/-- Recursively parsed children of an `array` element (line 78). -/
def parse_value_list : List XEl → Except PyErr (List Value)
  | [] => .ok []
  | e :: rest => do
    let v ← parse_value e
    let vs ← parse_value_list rest
    .ok (v :: vs)

/-- `parse_item` (lines 52-67): positional key/value pairing over the
children, two at a time, dropping an unpaired final child.  A key element's
missing text is modelled as the empty-string key (Python would store `None`
as the dict key; no claim depends on the difference). -/
def parse_item_pairs : List XEl → Item → Except PyErr Item
  | k :: v :: rest, acc =>
    if k.tag == "key" then do
      let val ← parse_value v
      parse_item_pairs rest (dictInsert acc (k.text.getD "") val)
    else
      parse_item_pairs rest acc
  | _, acc => .ok acc

end

/-- `parse_section` (lines 34-50): the same positional pairing, but only
entries whose value element is a `map` become items. -/
def parse_section_pairs : List XEl → List (String × Item) → Except PyErr (List (String × Item))
  | k :: v :: rest, acc =>
    if k.tag == "key" && v.tag == "map" then do
      let it ← parse_item_pairs v.children []
      parse_section_pairs rest (dictInsert acc (k.text.getD "") it)
    else
      parse_section_pairs rest acc
  | _, acc => .ok acc

/-- One top-level pair step of `parse_llsd_xml` (lines 27-30): a recognized
section name overwrites the corresponding Schema field; unrecognized or
missing key text, or a non-`key`/non-`map` pair, is skipped. -/
def sectionUpdate (acc : Schema) (k v : XEl) : Except PyErr Schema :=
  if k.tag == "key" && v.tag == "map" then
    match k.text with
    | some "constants" => do
      let s ← parse_section_pairs v.children []
      pure { acc with constants := s }
    | some "events" => do
      let s ← parse_section_pairs v.children []
      pure { acc with events := s }
    | some "functions" => do
      let s ← parse_section_pairs v.children []
      pure { acc with functions := s }
    | _ => pure acc
  else pure acc

/-- Top-level pair loop of `parse_llsd_xml` (lines 20-31). -/
def parseTop : List XEl → Schema → Except PyErr Schema
  | k :: v :: rest, acc => do
    let acc' ← sectionUpdate acc k v
    parseTop rest acc'
  | _, acc => .ok acc

/-- `parse_llsd_xml` (lines 4-32), from the already-parsed root element: the
first direct child tagged `map` is the main mapping; without one the empty
Schema is returned. -/
def parse_llsd_xml (root : XEl) : Except PyErr Schema :=
  match root.children.find? (fun c => c.tag == "map") with
  | none => .ok ⟨[], [], []⟩
  | some m => parseTop m.children ⟨[], [], []⟩

mutual

/-- Every `integer` and `real` element of the tree has empty or numeric
text. -/
def goodNums : XEl → Bool
  | .mk tag text children =>
    (if tag == "integer" then intTextGood text else true) &&
    (if tag == "real" then realTextGood text else true) &&
    goodNumsList children

/-- `goodNums` over a list of elements. -/
def goodNumsList : List XEl → Bool
  | [] => true
  | e :: rest => goodNums e && goodNumsList rest

end

/-- The preamble's single-character variable names. -/
def varNames : List String := ["f", "i", "k", "l", "q", "r", "s", "v"]

/-- Whether a line assigns the name `n` into one of the preamble variables. -/
def isAssignLine (n l : String) : Bool :=
  varNames.any (fun v => l == assignLine v n)

/-- Number of lines assigning `n` into a preamble variable. -/
def countAssign (n : String) (ls : List String) : Nat :=
  (ls.filter (fun l => isAssignLine n l)).length

/-- Whether the character occurs in the string. -/
def strHasChar (s : String) (c : Char) : Bool := s.data.any (fun x => x == c)

/-- Round-trip example schema: one integer constant `TRUE` with value `1`
and the activation event. -/
def trueSchema : Schema :=
  ⟨[("TRUE", [("type", Value.str "integer"), ("value", Value.str "1")])],
   [("touch_start", [])], []⟩

/-- Generator output on `trueSchema`. -/
def trueOut : String :=
  "float f;\ninteger i;\nkey k;\nlist l;\nquaternion q;\nrotation r;\nstring s;\nvector v;\n\ndefault\n\x7b\n    touch_start()\n    \x7b\n        i=TRUE;\n        r=ZERO_ROTATION;\n        v=ZERO_VECTOR;\n\n    \x7d\n\n\x7d"

/-- Activation body on `trueSchema`. -/
def trueBody : List String :=
  ["        i=TRUE;", "        r=ZERO_ROTATION;", "        v=ZERO_VECTOR;", ""]

/-- Attributes of the void-function example `llSay`. -/
def llSayItem : Item :=
  [("return", Value.str "void"),
   ("arguments", Value.seq
     [Value.map [("channel", Value.map [("type", Value.str "integer")])],
      Value.map [("msg", Value.map [("type", Value.str "string")])]])]

/-- Schema with only the `llSay` function and the activation event. -/
def llSaySchema : Schema := ⟨[], [("touch_start", [])], [("llSay", llSayItem)]⟩

/-- The empty Schema. -/
def emptySchema : Schema := ⟨[], [], []⟩

/-- Generator output on any schema with no events (the activation loop never
runs, so constants and functions leave no trace). -/
def emptyOut : String :=
  "float f;\ninteger i;\nkey k;\nlist l;\nquaternion q;\nrotation r;\nstring s;\nvector v;\n\ndefault\n\x7b\n\x7d"

/-- Schema with a hex-valued constant and the activation event. -/
def hexSchema : Schema :=
  ⟨[("FOO", [("type", Value.str "integer"), ("value", Value.str "0x1F")])],
   [("touch_start", [])], []⟩

/-- Generator output on `hexSchema`: the value text `0x1F` is nowhere in it. -/
def hexOut : String :=
  "float f;\ninteger i;\nkey k;\nlist l;\nquaternion q;\nrotation r;\nstring s;\nvector v;\n\ndefault\n\x7b\n    touch_start()\n    \x7b\n        i=FOO;\n        r=ZERO_ROTATION;\n        v=ZERO_VECTOR;\n\n    \x7d\n\n\x7d"

/-- The `TRUE` constant without any event: no activation body is emitted. -/
def noActSchema : Schema :=
  ⟨[("TRUE", [("type", Value.str "integer"), ("value", Value.str "1")])], [], []⟩

/-- A constant literally named like the built-in zero rotation. -/
def zrotSchema : Schema :=
  ⟨[("ZERO_ROTATION", [("type", Value.str "rotation")])], [("touch_start", [])], []⟩

/-- Activation body on `zrotSchema`: the name is assigned twice. -/
def zrotBody : List String :=
  ["        r=ZERO_ROTATION;", "        r=ZERO_ROTATION;", "        v=ZERO_VECTOR;", ""]

/-- A constant named `g()` together with a function named `g`. -/
def parenSchema : Schema :=
  ⟨[("g()", [("type", Value.str "integer")])], [("touch_start", [])],
   [("g", [("return", Value.str "integer")])]⟩

/-- Activation body on `parenSchema`: the constant assignment and the call
statement are the same line of text. -/
def parenBody : List String :=
  ["        i=g();", "        r=ZERO_ROTATION;", "        v=ZERO_VECTOR;", "", "        i=g();"]

/-- Schema with only the `llSay` function and no events. -/
def noActLlSchema : Schema := ⟨[], [], [("llSay", llSayItem)]⟩

/-- A well-formed document tree whose `integer` element holds non-numeric
text. -/
def badIntTree : XEl :=
  .mk "llsd" none [.mk "map" none
    [.mk "key" (some "constants") [], .mk "map" none
      [.mk "key" (some "C") [], .mk "map" none
        [.mk "key" (some "v") [], .mk "integer" (some "abc") []]]]]

/-- A well-formed document tree with numeric texts only. -/
def goodTree : XEl :=
  .mk "llsd" none [.mk "map" none
    [.mk "key" (some "constants") [], .mk "map" none
      [.mk "key" (some "TRUE") [], .mk "map" none
        [.mk "key" (some "type") [], .mk "string" (some "integer") [],
         .mk "key" (some "value") [], .mk "integer" (some "1") []]]]]

/-- A member of a line list is an infix of the joined string. -/
theorem mem_joinSep (sep : String) :
    ∀ (ls : List String) (l : String), l ∈ ls → l.data <:+: (joinSep sep ls).data
  | [], l, h => absurd h (List.not_mem_nil l)
  | [x], l, h => by
    have hx : l = x := by simpa using h
    subst hx
    exact List.infix_rfl
  | x :: y :: xs, l, h => by
    rcases List.mem_cons.mp h with h1 | h2
    · subst h1
      refine ⟨[], (sep ++ joinSep sep (y :: xs)).data, ?_⟩
      show [] ++ l.data ++ (sep ++ joinSep sep (y :: xs)).data = (l ++ sep ++ joinSep sep (y :: xs)).data
      simp [List.append_assoc]
    · obtain ⟨s, t, hst⟩ := mem_joinSep sep (y :: xs) l h2
      refine ⟨(x ++ sep).data ++ s, t, ?_⟩
      show (x ++ sep).data ++ s ++ l.data ++ t = ((x ++ sep) ++ joinSep sep (y :: xs)).data
      rw [String.data_append (x ++ sep), ← hst]
      simp [List.append_assoc]

/-- The identity replacement: replacing a pattern by itself is the identity. -/
theorem replaceChars_self (pat : List Char) (l : List Char) : replaceChars pat pat l = l := by
  generalize hn : l.length = n
  induction n using Nat.strong_induction_on generalizing l with
  | _ n ih =>
    match l, hn with
    | [], _ => simp [replaceChars]
    | c :: rest, hn =>
      rw [replaceChars]
      split
      · next h =>
        obtain ⟨t, ht⟩ := List.isPrefixOf_iff_prefix.mp h.2
        have hd : List.drop pat.length (c :: rest) = t := by
          rw [← ht]; exact List.drop_left pat t
        have hp : pat.length ≠ 0 := by
          intro h0
          have : pat = [] := List.length_eq_zero.mp h0
          simp [this] at h
        have hlt : t.length < n := by
          have hlen := congrArg List.length ht
          simp only [List.length_append, List.length_cons] at hlen
          simp only [List.length_cons] at hn
          omega
        rw [hd, ih t.length hlt t rfl, ht]
      · have hlt : rest.length < n := by
          simp only [List.length_cons] at hn
          omega
        rw [ih rest.length hlt rest rfl]

/-- The line emitted for a constant is the assignment of its name into the
variable of its declared type. -/
theorem constLine_ok {n : String} {cd : Item} {l : String} (h : constLine n cd = .ok l) :
    l = assignLine (constTypeVar ((pyGet cd "type").getD (.str "integer"))) n := by
  cases hv : (pyGet cd "value").getD (Value.str "0") <;> simp [constLine, hv] at h
  exact h.symm

/-- C1: the spec says generation never raises for any Schema whose symbols
may lack or mis-type any attribute, but the code contradicts this: with the
activation event present, a constant whose `value` attribute is an integer
rather than a string makes `const_value.startswith` raise `AttributeError`,
so `generate_lsl_script` fails instead of returning a string. -/
theorem generateRaisesOnIntegerValueAttr :
    generate_lsl_script ⟨[("C", [("value", Value.int 255)])], [("touch_start", [])], []⟩ =
      .error .attributeError := rfl

/-- C2 (amended): the hex-prefixed value is kept verbatim by the
normalization (never re-coerced to decimal or quoted) and any other value is
integer-coerced with a quoted-string fallback, but the generator discards
the normalized value: the emitted assignment is determined by the constant's
name and declared type alone, so the value never appears in the output. -/
theorem hexValueNormalizationDiscarded :
    (∀ s : String, pyStarts s "0x" = true → normalizeConstValue s = s) ∧
    (∀ s : String, pyStarts s "0x" = false →
      normalizeConstValue s =
        match pyInt s with
        | some n => toString n
        | none => "\"" ++ s ++ "\"") ∧
    (∀ (n : String) (cd : Item) (l : String), constLine n cd = .ok l →
      l = assignLine (constTypeVar ((pyGet cd "type").getD (.str "integer"))) n) := by
  refine ⟨?_, ?_, fun n cd l h => constLine_ok h⟩
  · intro s hs
    simp only [normalizeConstValue, hs, if_true]
    rw [replaceChars_self]
  · intro s hs
    simp only [normalizeConstValue, hs, Bool.false_eq_true, if_false]

/-- C2 counterexample: with a constant `FOO` of hex value `0x1F` and the
activation event present, the generated output contains no occurrence of the
value text at all — the assignment references the constant's name, so the
hex value is not kept (verbatim or otherwise) in the output. -/
theorem hexValueAbsentFromOutput :
    generate_lsl_script hexSchema = .ok hexOut ∧ ¬ ("0x1F".data <:+: hexOut.data) :=
  ⟨rfl, by decide⟩

/-- C2 witness: the amended statement at concrete inputs — `0x1F` is kept
verbatim by the normalization, `hello` falls back to a quoted literal, and
the emitted line for `FOO` is independent of its value. -/
theorem hexValueNormalizationDiscardedWitness :
    (pyStarts "0x1F" "0x" = true ∧ normalizeConstValue "0x1F" = "0x1F") ∧
    (pyStarts "hello" "0x" = false ∧ normalizeConstValue "hello" = "\"hello\"") ∧
    "        i=FOO;" =
      assignLine (constTypeVar ((pyGet [("type", Value.str "integer"),
        ("value", Value.str "0x1F")] "type").getD (.str "integer"))) "FOO" :=
  ⟨⟨rfl, hexValueNormalizationDiscarded.1 "0x1F" rfl⟩,
   ⟨rfl, (hexValueNormalizationDiscarded.2.1 "hello" rfl).trans (by rfl)⟩,
   hexValueNormalizationDiscarded.2.2 "FOO" _ "        i=FOO;" rfl⟩

/-- C9: `generate_lsl_script` is deterministic — structurally equal Schemas
yield identical results (the embedding is a pure function of the
insertion-ordered Schema; the source iterates insertion-ordered dicts with
no randomness or clock). -/
theorem generateDeterministic (d₁ d₂ : Schema) (h : d₁ = d₂) :
    generate_lsl_script d₁ = generate_lsl_script d₂ := by rw [h]

/-- C9 witness: determinism at the round-trip example schema. -/
theorem generateDeterministicWitness :
    generate_lsl_script trueSchema = generate_lsl_script trueSchema :=
  generateDeterministic trueSchema trueSchema rfl

/-- Destructuring a successful `generate_lsl_script`. -/
theorem generate_ok {data : Schema} {out : String} (h : generate_lsl_script data = .ok out) :
    ∃ evs, eventBlocks data data.events = .ok evs ∧
      out = joinSep "\n" (preambleLines ++ ["default", "\x7b"] ++ evs ++ ["\x7d"]) := by
  unfold generate_lsl_script generateLines at h
  cases he : eventBlocks data data.events with
  | ok evs =>
    rw [he] at h
    exact ⟨evs, rfl, (Except.ok.inj h).symm⟩
  | error e => rw [he] at h; exact Except.noConfusion h

/-- Destructuring a successful `activationBody`. -/
theorem activationBody_ok {data : Schema} {body : List String}
    (h : activationBody data = .ok body) :
    ∃ cs fs, constLines data.constants = .ok cs ∧ funcLines data.functions = .ok fs ∧
      body = cs ++ builtinLines ++ [""] ++ fs := by
  unfold activationBody at h
  cases hc : constLines data.constants with
  | error e => rw [hc] at h; exact Except.noConfusion h
  | ok cs =>
    rw [hc] at h
    cases hf : funcLines data.functions with
    | error e => rw [hf] at h; exact Except.noConfusion h
    | ok fs =>
      rw [hf] at h
      exact ⟨cs, fs, rfl, rfl, by
        have := (Except.ok.inj h).symm
        simpa [List.append_assoc] using this⟩

/-- Destructuring a successful `eventBlock`: header from the extracted
parameters, braces, and a body that is the blank-indent line for every
non-activation event and the activation body for `touch_start`. -/
theorem eventBlock_ok {data : Schema} {name : String} {ed : Item} {ls : List String}
    (h : eventBlock data name ed = .ok ls) :
    ∃ ps body, get_event_parameters ed = .ok ps ∧
      ls = ("    " ++ name ++ "(" ++
          joinSep ", " (ps.map (fun p => pyStr p.2 ++ " " ++ p.1)) ++ ")") ::
        "    \x7b" :: (body ++ ["    \x7d", ""]) ∧
      (name ≠ "touch_start" → body = ["        "]) ∧
      (name = "touch_start" → activationBody data = .ok body) := by
  unfold eventBlock at h
  cases hp : get_event_parameters ed with
  | error e => rw [hp] at h; exact Except.noConfusion h
  | ok ps =>
    rw [hp] at h
    cases hn : (name == "touch_start") with
    | true =>
      have hname : name = "touch_start" := by simpa using hn
      subst hname
      cases hb : activationBody data with
      | error e => rw [hb] at h; exact Except.noConfusion h
      | ok body =>
        rw [hb] at h
        exact ⟨ps, body, rfl, (Except.ok.inj h).symm,
          fun hne => absurd rfl hne, fun _ => rfl⟩
    | false =>
      rw [hn] at h
      have hname : name ≠ "touch_start" := by simpa using hn
      exact ⟨ps, ["        "], rfl, (Except.ok.inj h).symm,
        fun _ => rfl, fun he => absurd he hname⟩

/-- Destructuring successful `eventBlocks`: one block per event, in order. -/
theorem eventBlocks_ok {data : Schema} :
    ∀ {evs : List (String × Item)} {ls : List String}, eventBlocks data evs = .ok ls →
      ∃ bs, List.Forall₂ (fun (e : String × Item) b => eventBlock data e.1 e.2 = .ok b) evs bs ∧
        ls = bs.flatten := by
  intro evs
  induction evs with
  | nil =>
    intro ls h
    exact ⟨[], .nil, by simpa using (Except.ok.inj h).symm⟩
  | cons e rest ih =>
    intro ls h
    obtain ⟨n, ed⟩ := e
    unfold eventBlocks at h
    cases hb : eventBlock data n ed with
    | error er => rw [hb] at h; exact Except.noConfusion h
    | ok b =>
      rw [hb] at h
      cases hbs : eventBlocks data rest with
      | error er => rw [hbs] at h; exact Except.noConfusion h
      | ok bs' =>
        rw [hbs] at h
        obtain ⟨bs, hf, rfl⟩ := ih hbs
        exact ⟨b :: bs, .cons hb hf, by simpa using (Except.ok.inj h).symm⟩

/-- A member of the left list of a `Forall₂` is related to some member of
the right list. -/
theorem forall₂_exists_mem {α β : Type} {R : α → β → Prop} :
    ∀ {l₁ : List α} {l₂ : List β}, List.Forall₂ R l₁ l₂ → ∀ {a : α}, a ∈ l₁ →
      ∃ b ∈ l₂, R a b := by
  intro l₁ l₂ h
  induction h with
  | nil => intro a ha; exact absurd ha (List.not_mem_nil a)
  | cons hr _ ih =>
    intro a ha
    rcases List.mem_cons.mp ha with h1 | h2
    · subst h1; exact ⟨_, List.mem_cons_self .., hr⟩
    · obtain ⟨b, hb, hrb⟩ := ih h2
      exact ⟨b, List.mem_cons_of_mem _ hb, hrb⟩

/-- Lines of the activation body reach the output lines whenever the
activation event is present. -/
theorem activation_lines_in_events {data : Schema} {evs : List String}
    (hevs : eventBlocks data data.events = .ok evs)
    (hev : "touch_start" ∈ data.events.map Prod.fst) :
    ∃ body, activationBody data = .ok body ∧ ∀ l ∈ body, l ∈ evs := by
  obtain ⟨bs, hf, rfl⟩ := eventBlocks_ok hevs
  obtain ⟨e, he, hfst⟩ := List.mem_map.mp hev
  obtain ⟨b, hb, hok⟩ := forall₂_exists_mem hf he
  obtain ⟨ps, body, _, hbshape, _, hact⟩ := eventBlock_ok hok
  refine ⟨body, hact hfst, fun l hl => ?_⟩
  have hlb : l ∈ b := by
    rw [hbshape]
    exact List.mem_cons_of_mem _ (List.mem_cons_of_mem _ (List.mem_append_left _ hl))
  exact List.mem_flatten.mpr ⟨b, hb, hlb⟩

/-- C10: no type dispatch ever selects the quaternion variable: the constant,
argument and return dispatches never produce `q` and map the `quaternion`
tag to the integer variable `i`, while the preamble declaring
`quaternion q;` is contained in every successful output. -/
theorem quaternionVariableNeverSelected :
    (∀ t : Value, constTypeVar t ≠ "q" ∧ argTypeVar t ≠ "q" ∧ retTypeVar t ≠ "q") ∧
    (constTypeVar (.str "quaternion") = "i" ∧ argTypeVar (.str "quaternion") = "i" ∧
      retTypeVar (.str "quaternion") = "i") ∧
    (∀ (data : Schema) (out : String), generate_lsl_script data = .ok out →
      "quaternion q;".data <:+: out.data) := by
  refine ⟨fun t => ⟨?_, ?_, ?_⟩, ⟨rfl, rfl, rfl⟩, fun data out h => ?_⟩
  · unfold constTypeVar; split <;> decide
  · unfold argTypeVar; split <;> decide
  · unfold retTypeVar; split <;> decide
  · obtain ⟨evs, hevs, rfl⟩ := generate_ok h
    apply mem_joinSep
    simp [preambleLines]

/-- C10 witness: the quaternion fallback at the `quaternion` tag and the
preamble declaration inside a concrete output. -/
theorem quaternionVariableNeverSelectedWitness :
    constTypeVar (.str "quaternion") ≠ "q" ∧ "quaternion q;".data <:+: trueOut.data :=
  ⟨(quaternionVariableNeverSelected.1 (.str "quaternion")).1,
   quaternionVariableNeverSelected.2.2 trueSchema trueOut rfl⟩

/-- C4 (amended): whenever the activation event `touch_start` appears among
the events and generation succeeds, the two built-in assignments of the zero
rotation and zero vector are contained in the output, regardless of whether
those names appear in `schema.constants`; without the activation event they
are absent (see the counterexample). -/
theorem builtinAssignmentsWithActivation (data : Schema) (out : String)
    (hev : "touch_start" ∈ data.events.map Prod.fst)
    (h : generate_lsl_script data = .ok out) :
    "        r=ZERO_ROTATION;".data <:+: out.data ∧
    "        v=ZERO_VECTOR;".data <:+: out.data := by
  obtain ⟨evs, hevs, rfl⟩ := generate_ok h
  obtain ⟨body, hbody, hsub⟩ := activation_lines_in_events hevs hev
  obtain ⟨cs, fs, _, _, rfl⟩ := activationBody_ok hbody
  constructor <;>
    · apply mem_joinSep
      refine List.mem_append_left _ (List.mem_append_right _ ?_)
      apply hsub
      simp [builtinLines]

/-- C4 counterexample: on the empty Schema (no `touch_start` event) the
output contains neither built-in assignment, so they are not always
present. -/
theorem builtinAssignmentsAbsentWithoutActivation :
    generate_lsl_script emptySchema = .ok emptyOut ∧
    ¬ ("        r=ZERO_ROTATION;".data <:+: emptyOut.data) ∧
    ¬ ("        v=ZERO_VECTOR;".data <:+: emptyOut.data) :=
  ⟨rfl, by decide, by decide⟩

/-- C4 witness: the amended statement at the round-trip example schema. -/
theorem builtinAssignmentsWithActivationWitness :
    ("touch_start" ∈ trueSchema.events.map Prod.fst) ∧
    ("        r=ZERO_ROTATION;".data <:+: trueOut.data ∧
      "        v=ZERO_VECTOR;".data <:+: trueOut.data) :=
  ⟨by decide, builtinAssignmentsWithActivation trueSchema trueOut (by decide) rfl⟩

/-- `funcLines` emits exactly one statement per function, in order. -/
theorem funcLines_ok : ∀ {fns : List (String × Item)} {ls : List String},
    funcLines fns = .ok ls →
    List.Forall₂ (fun (f : String × Item) l => funcLine f.1 f.2 = .ok l) fns ls := by
  intro fns
  induction fns with
  | nil =>
    intro ls h
    have : ls = [] := by simpa using (Except.ok.inj h).symm
    subst this
    exact .nil
  | cons f rest ih =>
    intro ls h
    obtain ⟨n, fd⟩ := f
    unfold funcLines at h
    cases hl : funcLine n fd with
    | error e => rw [hl] at h; exact Except.noConfusion h
    | ok l =>
      rw [hl] at h
      cases hr : funcLines rest with
      | error e => rw [hr] at h; exact Except.noConfusion h
      | ok ls' =>
        rw [hr] at h
        have hls : l :: ls' = ls := Except.ok.inj h
        subst hls
        exact .cons hl (ih hr)

/-- Every emitted function statement is the `retLine` of a call expression
`name(arg-vars)`. -/
theorem funcLine_ok {n : String} {fd : Item} {l : String} (h : funcLine n fd = .ok l) :
    ∃ vs : List String, l = retLine ((pyGet fd "return").getD (.str "integer"))
      (n ++ "(" ++ joinSep ", " vs ++ ")") := by
  have harg : n ++ "()" = n ++ "(" ++ joinSep ", " ([] : List String) ++ ")" := by
    apply String.ext
    simp [joinSep, String.data_append]
  unfold funcLine at h
  split at h
  · next args heq =>
    split at h
    · cases hv : argVarsOf args with
      | error e => rw [hv] at h; exact Except.noConfusion h
      | ok vs =>
        rw [hv] at h
        exact ⟨vs, (Except.ok.inj h).symm⟩
    · refine ⟨[], ?_⟩
      rw [(Except.ok.inj h).symm, ← harg]
  · refine ⟨[], ?_⟩
    rw [(Except.ok.inj h).symm, ← harg]

/-- Each argument variable comes from the argument's declared type via the
argument dispatch table. -/
theorem argVarsPairs_ok : ∀ {pairs : List (String × Value)} {vs : List String},
    argVarsPairs pairs = .ok vs →
    List.Forall₂ (fun (p : String × Value) v =>
      ∃ ad, p.2 = Value.map ad ∧
        v = argTypeVar ((pyGet ad "type").getD (.str "integer"))) pairs vs := by
  intro pairs
  induction pairs with
  | nil =>
    intro vs h
    have : vs = [] := by simpa using (Except.ok.inj h).symm
    subst this
    exact .nil
  | cons p rest ih =>
    intro vs h
    obtain ⟨pn, pv⟩ := p
    cases pv with
    | map ad =>
      unfold argVarsPairs at h
      cases hr : argVarsPairs rest with
      | error e => rw [hr] at h; exact Except.noConfusion h
      | ok more =>
        rw [hr] at h
        have hvs : argTypeVar ((pyGet ad "type").getD (.str "integer")) :: more = vs :=
          Except.ok.inj h
        subst hvs
        exact .cons ⟨ad, rfl, rfl⟩ (ih hr)
    | str s => unfold argVarsPairs at h; exact Except.noConfusion h
    | int m => unfold argVarsPairs at h; exact Except.noConfusion h
    | real t => unfold argVarsPairs at h; exact Except.noConfusion h
    | seq l2 => unfold argVarsPairs at h; exact Except.noConfusion h
    | pyNone => unfold argVarsPairs at h; exact Except.noConfusion h

/-- A non-`void` return type makes the statement an assignment into the
return type's variable. -/
theorem retLine_nonvoid {rt : Value} (h : rt ≠ .str "void") (call : String) :
    retLine rt call = assignLine (retTypeVar rt) call := by
  unfold retLine
  split
  · exact absurd rfl h
  · rfl

/-- C6 (amended): whenever the activation body is emitted (which requires
the `touch_start` event; see the counterexample for its absence), each
function of `schema.functions` yields exactly one call statement, in
insertion order, after the built-in assignments; each call's argument
variables are selected by the argument's declared type with the integer
fallback, a `void` return makes the call standalone, any other return
assigns the call result into the return type's variable, and the `llSay`
example yields the standalone statement `llSay(i, s);`. -/
theorem functionCallsOncePerFunction :
    (∀ (data : Schema) (body : List String), activationBody data = .ok body →
      ∃ cs fs, funcLines data.functions = .ok fs ∧
        List.Forall₂ (fun (f : String × Item) l => funcLine f.1 f.2 = .ok l)
          data.functions fs ∧
        body = cs ++ builtinLines ++ [""] ++ fs) ∧
    (∀ (n : String) (fd : Item) (l : String), funcLine n fd = .ok l →
      ∃ vs : List String, l = retLine ((pyGet fd "return").getD (.str "integer"))
        (n ++ "(" ++ joinSep ", " vs ++ ")")) ∧
    (∀ (pairs : List (String × Value)) (vs : List String), argVarsPairs pairs = .ok vs →
      List.Forall₂ (fun (p : String × Value) v =>
        ∃ ad, p.2 = Value.map ad ∧
          v = argTypeVar ((pyGet ad "type").getD (.str "integer"))) pairs vs) ∧
    (∀ call : String, retLine (.str "void") call = "        " ++ call ++ ";") ∧
    (∀ (rt : Value) (call : String), rt ≠ .str "void" →
      retLine rt call = assignLine (retTypeVar rt) call) ∧
    funcLine "llSay" llSayItem = .ok "        llSay(i, s);" := by
  refine ⟨fun data body h => ?_, fun n fd l h => funcLine_ok h,
    fun pairs vs h => argVarsPairs_ok h, fun call => rfl,
    fun rt call h => retLine_nonvoid h call, rfl⟩
  obtain ⟨cs, fs, hc, hf, rfl⟩ := activationBody_ok h
  exact ⟨cs, fs, hf, funcLines_ok hf, rfl⟩

/-- C6 counterexample: with the function `llSay` declared but no
`touch_start` event, the output contains no call at all, so functions are
not unconditionally emitted. -/
theorem functionCallAbsentWithoutActivation :
    generate_lsl_script noActLlSchema = .ok emptyOut ∧
    ¬ ("llSay".data <:+: emptyOut.data) :=
  ⟨rfl, by decide⟩

/-- C6 witness: the amended statement at the `llSay` example schema. -/
theorem functionCallsOncePerFunctionWitness :
    (∃ cs fs, funcLines llSaySchema.functions = .ok fs ∧
      List.Forall₂ (fun (f : String × Item) l => funcLine f.1 f.2 = .ok l)
        llSaySchema.functions fs ∧
      (["        r=ZERO_ROTATION;", "        v=ZERO_VECTOR;", "", "        llSay(i, s);"] :
          List String) = cs ++ builtinLines ++ [""] ++ fs) ∧
    (∃ vs : List String, "        llSay(i, s);" =
      retLine ((pyGet llSayItem "return").getD (.str "integer"))
        ("llSay" ++ "(" ++ joinSep ", " vs ++ ")")) :=
  ⟨functionCallsOncePerFunction.1 llSaySchema
      ["        r=ZERO_ROTATION;", "        v=ZERO_VECTOR;", "", "        llSay(i, s);"] rfl,
   functionCallsOncePerFunction.2.1 "llSay" llSayItem "        llSay(i, s);" rfl⟩

/-- C7: every event yields exactly one block, in Schema order; the block's
header is the event name followed by the parenthesized comma-separated
`type name` parameter list from `get_event_parameters` (parentheses present
even with zero parameters), and every non-activation event gets the empty
blank-indent body; the `state_entry` example is evaluated concretely. -/
theorem eventBlocksStructure :
    (∀ (data : Schema) (evs : List (String × Item)) (ls : List String),
      eventBlocks data evs = .ok ls →
      ∃ bs, List.Forall₂ (fun (e : String × Item) b => eventBlock data e.1 e.2 = .ok b) evs bs ∧
        ls = bs.flatten) ∧
    (∀ (data : Schema) (name : String) (ed : Item) (ls : List String),
      eventBlock data name ed = .ok ls →
      ∃ ps body, get_event_parameters ed = .ok ps ∧
        ls = ("    " ++ name ++ "(" ++
            joinSep ", " (ps.map (fun p => pyStr p.2 ++ " " ++ p.1)) ++ ")") ::
          "    \x7b" :: (body ++ ["    \x7d", ""]) ∧
        (name ≠ "touch_start" → body = ["        "])) ∧
    eventBlock emptySchema "state_entry" [("arguments", Value.seq [])] =
      .ok ["    state_entry()", "    \x7b", "        ", "    \x7d", ""] := by
  refine ⟨fun data evs ls h => eventBlocks_ok h, fun data name ed ls h => ?_, rfl⟩
  obtain ⟨ps, body, h1, h2, h3, _⟩ := eventBlock_ok h
  exact ⟨ps, body, h1, h2, h3⟩

/-- C7 witness: the block structure at the round-trip example schema and at
a concrete non-activation event. -/
theorem eventBlocksStructureWitness :
    (∃ bs, List.Forall₂ (fun (e : String × Item) b => eventBlock trueSchema e.1 e.2 = .ok b)
        trueSchema.events bs ∧
      (["    touch_start()", "    \x7b", "        i=TRUE;", "        r=ZERO_ROTATION;",
        "        v=ZERO_VECTOR;", "", "    \x7d", ""] : List String) = bs.flatten) ∧
    (∃ ps body, get_event_parameters [("arguments", Value.seq [])] = .ok ps ∧
      (["    state_entry()", "    \x7b", "        ", "    \x7d", ""] : List String) =
        ("    " ++ "state_entry" ++ "(" ++
            joinSep ", " (ps.map (fun p => pyStr p.2 ++ " " ++ p.1)) ++ ")") ::
          "    \x7b" :: (body ++ ["    \x7d", ""]) ∧
      ("state_entry" ≠ "touch_start" → body = ["        "])) :=
  ⟨eventBlocksStructure.1 trueSchema trueSchema.events
      ["    touch_start()", "    \x7b", "        i=TRUE;", "        r=ZERO_ROTATION;",
        "        v=ZERO_VECTOR;", "", "    \x7d", ""] rfl,
   eventBlocksStructure.2.1 emptySchema "state_entry" [("arguments", Value.seq [])]
      ["    state_entry()", "    \x7b", "        ", "    \x7d", ""] rfl⟩

/-- Odd-length child lists: the final unpaired child is dropped by the item
pair loop. -/
theorem parse_item_pairs_odd : ∀ (cs : List XEl) (acc : Item), cs.length % 2 = 1 →
    parse_item_pairs cs acc = parse_item_pairs cs.dropLast acc
  | [], _, h => by simp at h
  | [_], _, _ => rfl
  | k :: v :: rest, acc, h => by
    have hrest : rest.length % 2 = 1 := by
      simp only [List.length_cons] at h
      omega
    have hne : rest ≠ [] := by
      intro h0
      rw [h0] at hrest
      simp at hrest
    have hdl : (k :: v :: rest).dropLast = k :: v :: rest.dropLast := by
      rw [List.dropLast_cons_of_ne_nil (by simp), List.dropLast_cons_of_ne_nil hne]
    rw [hdl]
    unfold parse_item_pairs
    cases hk : (k.tag == "key") with
    | true =>
      cases hpv : parse_value v with
      | error e => rfl
      | ok val => exact parse_item_pairs_odd rest (dictInsert acc (k.text.getD "") val) hrest
    | false => exact parse_item_pairs_odd rest acc hrest

/-- Odd-length child lists: the final unpaired child is dropped by the
section pair loop. -/
theorem parse_section_pairs_odd :
    ∀ (cs : List XEl) (acc : List (String × Item)), cs.length % 2 = 1 →
      parse_section_pairs cs acc = parse_section_pairs cs.dropLast acc
  | [], _, h => by simp at h
  | [_], _, _ => rfl
  | k :: v :: rest, acc, h => by
    have hrest : rest.length % 2 = 1 := by
      simp only [List.length_cons] at h
      omega
    have hne : rest ≠ [] := by
      intro h0
      rw [h0] at hrest
      simp at hrest
    have hdl : (k :: v :: rest).dropLast = k :: v :: rest.dropLast := by
      rw [List.dropLast_cons_of_ne_nil (by simp), List.dropLast_cons_of_ne_nil hne]
    rw [hdl]
    unfold parse_section_pairs
    cases hk : (k.tag == "key" && v.tag == "map") with
    | true =>
      cases hpv : parse_item_pairs v.children [] with
      | error e => rfl
      | ok it => exact parse_section_pairs_odd rest (dictInsert acc (k.text.getD "") it) hrest
    | false => exact parse_section_pairs_odd rest acc hrest

/-- Odd-length child lists: the final unpaired child is dropped by the
top-level pair loop. -/
theorem parseTop_odd : ∀ (cs : List XEl) (acc : Schema), cs.length % 2 = 1 →
    parseTop cs acc = parseTop cs.dropLast acc
  | [], _, h => by simp at h
  | [_], _, _ => rfl
  | k :: v :: rest, acc, h => by
    have hrest : rest.length % 2 = 1 := by
      simp only [List.length_cons] at h
      omega
    have hne : rest ≠ [] := by
      intro h0
      rw [h0] at hrest
      simp at hrest
    have hdl : (k :: v :: rest).dropLast = k :: v :: rest.dropLast := by
      rw [List.dropLast_cons_of_ne_nil (by simp), List.dropLast_cons_of_ne_nil hne]
    rw [hdl]
    unfold parseTop
    cases hs : sectionUpdate acc k v with
    | error e => rfl
    | ok acc' => exact parseTop_odd rest acc' hrest

/-- C8: mapping children are interpreted positionally — the pair step
consumes child i as the key element and child i+1 as the associated value —
and an odd final child is silently dropped without error, at all three
levels: item mappings (`parse_item`), section mappings (`parse_section`),
and the top-level mapping loop of `parse_llsd_xml` (whose pair step is
`sectionUpdate`). -/
theorem mappingPairsPositionalOddDropped :
    (∀ (k v : XEl) (rest : List XEl) (acc : Item), k.tag = "key" →
      parse_item_pairs (k :: v :: rest) acc =
        (parse_value v).bind fun val =>
          parse_item_pairs rest (dictInsert acc (k.text.getD "") val)) ∧
    (∀ (k v : XEl) (rest : List XEl) (acc : Item), k.tag ≠ "key" →
      parse_item_pairs (k :: v :: rest) acc = parse_item_pairs rest acc) ∧
    (∀ (k v : XEl) (rest : List XEl) (acc : List (String × Item)),
      k.tag = "key" → v.tag = "map" →
      parse_section_pairs (k :: v :: rest) acc =
        (parse_item_pairs v.children []).bind fun it =>
          parse_section_pairs rest (dictInsert acc (k.text.getD "") it)) ∧
    (∀ (k v : XEl) (rest : List XEl) (acc : List (String × Item)),
      ¬(k.tag = "key" ∧ v.tag = "map") →
      parse_section_pairs (k :: v :: rest) acc = parse_section_pairs rest acc) ∧
    (∀ (k v : XEl) (rest : List XEl) (acc : Schema),
      parseTop (k :: v :: rest) acc =
        (sectionUpdate acc k v).bind fun acc' => parseTop rest acc') ∧
    (∀ (cs : List XEl) (acc : Item), cs.length % 2 = 1 →
      parse_item_pairs cs acc = parse_item_pairs cs.dropLast acc) ∧
    (∀ (cs : List XEl) (acc : List (String × Item)), cs.length % 2 = 1 →
      parse_section_pairs cs acc = parse_section_pairs cs.dropLast acc) ∧
    (∀ (cs : List XEl) (acc : Schema), cs.length % 2 = 1 →
      parseTop cs acc = parseTop cs.dropLast acc) := by
  refine ⟨fun k v rest acc hk => ?_, fun k v rest acc hk => ?_,
    fun k v rest acc hk hv => ?_, fun k v rest acc hkv => ?_,
    fun k v rest acc => ?_,
    parse_item_pairs_odd, parse_section_pairs_odd, parseTop_odd⟩
  · have hb : (k.tag == "key") = true := by simpa using hk
    conv_lhs => unfold parse_item_pairs
    rw [hb]
    rfl
  · have hb : (k.tag == "key") = false := by simpa using hk
    conv_lhs => unfold parse_item_pairs
    rw [hb]
    rfl
  · have hb : (k.tag == "key" && v.tag == "map") = true := by
      rw [Bool.and_eq_true]
      exact ⟨by simpa using hk, by simpa using hv⟩
    conv_lhs => unfold parse_section_pairs
    rw [hb]
    rfl
  · have hb : (k.tag == "key" && v.tag == "map") = false := by
      cases hx : (k.tag == "key" && v.tag == "map") with
      | false => rfl
      | true =>
        rw [Bool.and_eq_true] at hx
        exact absurd ⟨by simpa using hx.1, by simpa using hx.2⟩ hkv
    conv_lhs => unfold parse_section_pairs
    rw [hb]
    rfl
  · conv_lhs => unfold parseTop
    rfl

/-- C8 witness: the pair steps and the odd-drops at concrete children, for
all three loops. -/
theorem mappingPairsPositionalOddDroppedWitness :
    ((XEl.mk "key" (some "a") []).tag = "key" ∧
      parse_item_pairs [XEl.mk "key" (some "a") [], XEl.mk "integer" (some "7") []] [] =
        (parse_value (XEl.mk "integer" (some "7") [])).bind (fun val =>
          parse_item_pairs [] (dictInsert [] "a" val))) ∧
    ((XEl.mk "key" (some "c") []).tag = "key" ∧ (XEl.mk "map" none []).tag = "map" ∧
      parse_section_pairs [XEl.mk "key" (some "c") [], XEl.mk "map" none []] [] =
        (parse_item_pairs [] []).bind (fun it =>
          parse_section_pairs [] (dictInsert [] "c" it))) ∧
    (parseTop [XEl.mk "key" (some "constants") [], XEl.mk "map" none []] ⟨[], [], []⟩ =
      (sectionUpdate ⟨[], [], []⟩ (XEl.mk "key" (some "constants") [])
        (XEl.mk "map" none [])).bind (fun acc' => parseTop [] acc')) ∧
    (([XEl.mk "key" (some "a") [], XEl.mk "integer" (some "7") [],
        XEl.mk "key" (some "b") []] : List XEl).length % 2 = 1 ∧
      parse_item_pairs [XEl.mk "key" (some "a") [], XEl.mk "integer" (some "7") [],
          XEl.mk "key" (some "b") []] [] =
        parse_item_pairs ([XEl.mk "key" (some "a") [], XEl.mk "integer" (some "7") [],
          XEl.mk "key" (some "b") []].dropLast) []) ∧
    (([XEl.mk "key" (some "s") []] : List XEl).length % 2 = 1 ∧
      parse_section_pairs [XEl.mk "key" (some "s") []] [] =
        parse_section_pairs ([XEl.mk "key" (some "s") []] : List XEl).dropLast []) ∧
    (([XEl.mk "key" (some "t") []] : List XEl).length % 2 = 1 ∧
      parseTop [XEl.mk "key" (some "t") []] ⟨[], [], []⟩ =
        parseTop ([XEl.mk "key" (some "t") []] : List XEl).dropLast ⟨[], [], []⟩) :=
  ⟨⟨rfl, mappingPairsPositionalOddDropped.1 (XEl.mk "key" (some "a") [])
      (XEl.mk "integer" (some "7") []) [] [] rfl⟩,
   ⟨rfl, rfl, mappingPairsPositionalOddDropped.2.2.1 (XEl.mk "key" (some "c") [])
      (XEl.mk "map" none []) [] [] rfl rfl⟩,
   mappingPairsPositionalOddDropped.2.2.2.2.1 (XEl.mk "key" (some "constants") [])
      (XEl.mk "map" none []) [] ⟨[], [], []⟩,
   ⟨rfl, mappingPairsPositionalOddDropped.2.2.2.2.2.1
      [XEl.mk "key" (some "a") [], XEl.mk "integer" (some "7") [],
        XEl.mk "key" (some "b") []] [] rfl⟩,
   ⟨rfl, mappingPairsPositionalOddDropped.2.2.2.2.2.2.1
      [XEl.mk "key" (some "s") []] [] rfl⟩,
   ⟨rfl, mappingPairsPositionalOddDropped.2.2.2.2.2.2.2
      [XEl.mk "key" (some "t") []] ⟨[], [], []⟩ rfl⟩⟩

/-- The preamble variable names are single characters other than `(`. -/
theorem varNames_single : ∀ v ∈ varNames, v.data.length = 1 ∧ '(' ∉ v.data := by decide

/-- The character-list shape of an assignment line. -/
theorem assignLine_data (v n : String) :
    (assignLine v n).data = "        ".data ++ v.data ++ "=".data ++ n.data ++ ";".data := by
  simp [assignLine]

/-- Assignment lines built from single-character variables determine the
variable and the assigned name. -/
theorem assignLine_inj {v₁ v₂ m n : String}
    (h₁ : v₁.data.length = 1) (h₂ : v₂.data.length = 1)
    (h : assignLine v₁ m = assignLine v₂ n) : v₁ = v₂ ∧ m = n := by
  have hd := congrArg String.data h
  rw [assignLine_data, assignLine_data] at hd
  have hd1 := (List.append_inj' hd rfl).1
  have hd2 := List.append_inj hd1 (by simp [h₁, h₂])
  have hv : v₁.data = v₂.data :=
    List.append_cancel_left (List.append_cancel_right hd2.1)
  exact ⟨String.ext hv, String.ext hd2.2⟩

/-- A constructed assignment line passes the assignment-of-`n` test exactly
when the assigned name is `n`. -/
theorem isAssignLine_iff {n m tv : String} (htv : tv ∈ varNames) :
    isAssignLine n (assignLine tv m) = true ↔ m = n := by
  constructor
  · intro h
    rw [isAssignLine, List.any_eq_true] at h
    obtain ⟨v, hv, heq⟩ := h
    have heq' : assignLine tv m = assignLine v n := by simpa using heq
    exact (assignLine_inj (varNames_single tv htv).1 (varNames_single v hv).1 heq').2
  · intro h
    subst h
    rw [isAssignLine, List.any_eq_true]
    exact ⟨tv, htv, by simp⟩

/-- The constant dispatch always lands in the preamble variable set. -/
theorem constTypeVar_mem (t : Value) : constTypeVar t ∈ varNames := by
  unfold constTypeVar
  split <;> simp [varNames]

/-- `countAssign` distributes over append. -/
theorem countAssign_append (n : String) (a b : List String) :
    countAssign n (a ++ b) = countAssign n a + countAssign n b := by
  simp [countAssign, List.filter_append]

/-- A parenthesis-free name never occurs in the string. -/
theorem strHasChar_false {s : String} {c : Char} (h : strHasChar s c = false) : c ∉ s.data := by
  intro hc
  have ht : strHasChar s c = true := by
    rw [strHasChar, List.any_eq_true]
    exact ⟨c, hc, by simp⟩
  rw [ht] at h
  exact Bool.noConfusion h

/-- Constant lines for names other than `n` contribute no assignment of
`n`. -/
theorem countAssign_constLines_zero {n : String} :
    ∀ {cs : List (String × Item)} {ls : List String},
    constLines cs = .ok ls → (∀ p ∈ cs, p.1 ≠ n) → countAssign n ls = 0 := by
  intro cs
  induction cs with
  | nil =>
    intro ls h _
    have : ls = [] := by simpa using (Except.ok.inj h).symm
    subst this
    rfl
  | cons c rest ih =>
    intro ls h hne
    obtain ⟨m, md⟩ := c
    unfold constLines at h
    cases hl : constLine m md with
    | error e => rw [hl] at h; exact Except.noConfusion h
    | ok l =>
      rw [hl] at h
      cases hr : constLines rest with
      | error e => rw [hr] at h; exact Except.noConfusion h
      | ok ls' =>
        rw [hr] at h
        have hls : l :: ls' = ls := Except.ok.inj h
        subst hls
        have hm : m ≠ n := hne (m, md) (List.mem_cons_self ..)
        have hl0 : isAssignLine n l = false := by
          rw [constLine_ok hl]
          cases hb2 : isAssignLine n
              (assignLine (constTypeVar ((pyGet md "type").getD (.str "integer"))) m) with
          | false => rfl
          | true => exact absurd ((isAssignLine_iff (constTypeVar_mem _)).mp hb2) hm
        have hstep : countAssign n (l :: ls') = countAssign n ls' := by
          simp [countAssign, List.filter_cons, hl0]
        rw [hstep]
        exact ih hr (fun p hp => hne p (List.mem_cons_of_mem _ hp))

/-- The constant lines contain exactly one assignment of each declared
constant name, into the variable of its declared type. -/
theorem countAssign_constLines {n : String} {cd : Item} :
    ∀ {cs : List (String × Item)} {ls : List String},
    constLines cs = .ok ls → (cs.map Prod.fst).Nodup → (n, cd) ∈ cs →
    countAssign n ls = 1 ∧
      assignLine (constTypeVar ((pyGet cd "type").getD (.str "integer"))) n ∈ ls := by
  intro cs
  induction cs with
  | nil => intro ls _ _ hm; exact absurd hm (List.not_mem_nil _)
  | cons c rest ih =>
    intro ls h hnd hm
    obtain ⟨m, md⟩ := c
    rw [List.map_cons, List.nodup_cons] at hnd
    unfold constLines at h
    cases hl : constLine m md with
    | error e => rw [hl] at h; exact Except.noConfusion h
    | ok l =>
      rw [hl] at h
      cases hr : constLines rest with
      | error e => rw [hr] at h; exact Except.noConfusion h
      | ok ls' =>
        rw [hr] at h
        have hls : l :: ls' = ls := Except.ok.inj h
        subst hls
        rcases List.mem_cons.mp hm with heq | hmem
        · obtain ⟨hn, hcd⟩ := Prod.mk.inj heq
          subst hn
          subst hcd
          have htrue : isAssignLine n l = true := by
            rw [constLine_ok hl]
            exact (isAssignLine_iff (constTypeVar_mem _)).mpr rfl
          have hzero : countAssign n ls' = 0 := by
            apply countAssign_constLines_zero hr
            intro p hp hpn
            exact hnd.1 (List.mem_map.mpr ⟨p, hp, hpn⟩)
          constructor
          · simp [countAssign, List.filter_cons, htrue] at hzero ⊢
            simpa [countAssign] using hzero
          · exact List.mem_cons.mpr (.inl (constLine_ok hl).symm)
        · have hm2 : m ≠ n := by
            intro hmn
            subst hmn
            exact hnd.1 (List.mem_map.mpr ⟨(m, cd), hmem, rfl⟩)
          have hfalse : isAssignLine n l = false := by
            rw [constLine_ok hl]
            cases hb2 : isAssignLine n
                (assignLine (constTypeVar ((pyGet md "type").getD (.str "integer"))) m) with
            | false => rfl
            | true => exact absurd ((isAssignLine_iff (constTypeVar_mem _)).mp hb2) hm2
          obtain ⟨hcount, hmem'⟩ := ih hr hnd.2 hmem
          constructor
          · have hstep : countAssign n (l :: ls') = countAssign n ls' := by
              simp [countAssign, List.filter_cons, hfalse]
            rw [hstep]
            exact hcount
          · exact List.mem_cons_of_mem _ hmem'

/-- Call statements contain a parenthesis, so they never match the
assignment-of-`n` test for a parenthesis-free `n`. -/
theorem funcLine_no_assign {n fn : String} {fd : Item} {l : String}
    (hp : strHasChar n '(' = false) (h : funcLine fn fd = .ok l) :
    isAssignLine n l = false := by
  obtain ⟨vs, hl⟩ := funcLine_ok h
  have hpar : '(' ∈ l.data := by
    rw [hl]
    unfold retLine
    split
    · simp [String.data_append]
    · simp [assignLine, String.data_append]
  cases hb : isAssignLine n l with
  | false => rfl
  | true =>
    rw [isAssignLine, List.any_eq_true] at hb
    obtain ⟨v, hv, heq⟩ := hb
    have heq' : l = assignLine v n := by simpa using heq
    rw [heq'] at hpar
    rw [assignLine_data] at hpar
    simp only [List.mem_append] at hpar
    rcases hpar with ((((h8 | hvp) | heqd) | hnp) | hsp)
    · exact absurd h8 (by decide)
    · exact absurd hvp (varNames_single v hv).2
    · exact absurd heqd (by decide)
    · exact absurd hnp (strHasChar_false hp)
    · exact absurd hsp (by decide)

/-- Function lines contribute no assignment of a parenthesis-free name. -/
theorem countAssign_funcLines_zero {n : String} (hp : strHasChar n '(' = false) :
    ∀ {fns : List (String × Item)} {ls : List String},
    funcLines fns = .ok ls → countAssign n ls = 0 := by
  intro fns
  induction fns with
  | nil =>
    intro ls h
    have : ls = [] := by simpa using (Except.ok.inj h).symm
    subst this
    rfl
  | cons f rest ih =>
    intro ls h
    obtain ⟨fn, fd⟩ := f
    unfold funcLines at h
    cases hl : funcLine fn fd with
    | error e => rw [hl] at h; exact Except.noConfusion h
    | ok l =>
      rw [hl] at h
      cases hr : funcLines rest with
      | error e => rw [hr] at h; exact Except.noConfusion h
      | ok ls' =>
        rw [hr] at h
        have hls : l :: ls' = ls := Except.ok.inj h
        subst hls
        have hfalse : isAssignLine n l = false := funcLine_no_assign hp hl
        have hstep : countAssign n (l :: ls') = countAssign n ls' := by
          simp [countAssign, List.filter_cons, hfalse]
        rw [hstep]
        exact ih hr

/-- C5 (amended): provided the activation body is emitted (the claim fails
without the `touch_start` event) and the constant's name is neither a
built-in constant name (`ZERO_ROTATION`/`ZERO_VECTOR`, whose fixed lines
duplicate it) nor contains a parenthesis (which can collide with a call
statement), each name of `schema.constants` appears exactly once as the
right-hand side of an assignment line of the activation body, assigned into
the single variable of its declared type with the integer default and
fallback; in particular `TRUE` yields `i=TRUE;` (see the witness). -/
theorem constantAssignedOnceInActivationBody (data : Schema) (body : List String)
    (n : String) (cd : Item)
    (hb : activationBody data = .ok body)
    (hnd : (data.constants.map Prod.fst).Nodup)
    (hmem : (n, cd) ∈ data.constants)
    (hzr : n ≠ "ZERO_ROTATION") (hzv : n ≠ "ZERO_VECTOR")
    (hp : strHasChar n '(' = false) :
    countAssign n body = 1 ∧
      assignLine (constTypeVar ((pyGet cd "type").getD (.str "integer"))) n ∈ body := by
  obtain ⟨cs, fs, hc, hf, rfl⟩ := activationBody_ok hb
  obtain ⟨h1, h1m⟩ := countAssign_constLines hc hnd hmem
  have e1 : isAssignLine n "        r=ZERO_ROTATION;" = false := by
    have hline : "        r=ZERO_ROTATION;" = assignLine "r" "ZERO_ROTATION" := rfl
    cases hb1 : isAssignLine n "        r=ZERO_ROTATION;" with
    | false => rfl
    | true =>
      rw [hline] at hb1
      exact absurd ((isAssignLine_iff (by decide)).mp hb1).symm hzr
  have e2 : isAssignLine n "        v=ZERO_VECTOR;" = false := by
    have hline : "        v=ZERO_VECTOR;" = assignLine "v" "ZERO_VECTOR" := rfl
    cases hb1 : isAssignLine n "        v=ZERO_VECTOR;" with
    | false => rfl
    | true =>
      rw [hline] at hb1
      exact absurd ((isAssignLine_iff (by decide)).mp hb1).symm hzv
  have e3 : isAssignLine n "" = false := by
    cases hb1 : isAssignLine n "" with
    | false => rfl
    | true =>
      rw [isAssignLine, List.any_eq_true] at hb1
      obtain ⟨v, hv, heq⟩ := hb1
      have heq' : "" = assignLine v n := by simpa using heq
      have hne : (assignLine v n).data ≠ [] := by
        rw [assignLine_data]
        simp
      exact absurd (congrArg String.data heq').symm hne
  have h2 : countAssign n (builtinLines ++ [""]) = 0 := by
    simp [countAssign, builtinLines, List.filter_cons, e1, e2, e3]
  have h3 : countAssign n fs = 0 := countAssign_funcLines_zero hp hf
  constructor
  · have hsplit : cs ++ builtinLines ++ [""] ++ fs = cs ++ ((builtinLines ++ [""]) ++ fs) := by
      simp [List.append_assoc]
    rw [hsplit, countAssign_append, countAssign_append, h1, h2, h3]
  · exact List.mem_append_left _ (List.mem_append_left _ (List.mem_append_left _ h1m))

/-- C5 counterexample: three failures of the claim as stated — without the
activation event the constant `TRUE` is never assigned at all; a constant
literally named `ZERO_ROTATION` is assigned twice (its own line plus the
fixed built-in line); and a constant named `g()` textually collides with the
call statement of a function `g`, again appearing twice. -/
theorem constantAssignmentCountAnomalies :
    (generate_lsl_script noActSchema = .ok emptyOut ∧
      ¬ ("        i=TRUE;".data <:+: emptyOut.data)) ∧
    (activationBody zrotSchema = .ok zrotBody ∧ countAssign "ZERO_ROTATION" zrotBody = 2) ∧
    (activationBody parenSchema = .ok parenBody ∧ countAssign "g()" parenBody = 2) :=
  ⟨⟨rfl, by decide⟩, ⟨rfl, by decide⟩, ⟨rfl, by decide⟩⟩

/-- C5 witness: the amended statement at the round-trip example — the
constant `TRUE` is assigned exactly once in the activation body, namely by
the line `i=TRUE;`. -/
theorem constantAssignedOnceWitness :
    countAssign "TRUE" trueBody = 1 ∧
      assignLine (constTypeVar ((pyGet [("type", Value.str "integer"),
        ("value", Value.str "1")] "type").getD (.str "integer"))) "TRUE" ∈ trueBody :=
  constantAssignedOnceInActivationBody trueSchema trueBody "TRUE"
    [("type", Value.str "integer"), ("value", Value.str "1")]
    rfl (by decide) (List.mem_singleton.mpr rfl) (by decide) (by decide) rfl

/-- `goodNums` of an element gives `goodNumsList` of its children. -/
theorem goodNums_children {e : XEl} (h : goodNums e = true) :
    goodNumsList e.children = true := by
  cases e with
  | mk tag text children =>
    simp only [goodNums, Bool.and_eq_true] at h
    simpa [XEl.children] using h.2

/-- Members of a `goodNumsList` list are `goodNums`. -/
theorem goodNumsList_mem : ∀ {l : List XEl}, goodNumsList l = true →
    ∀ {e : XEl}, e ∈ l → goodNums e = true := by
  intro l
  induction l with
  | nil => intro _ e he; exact absurd he (List.not_mem_nil e)
  | cons x rest ih =>
    intro h e he
    simp only [goodNumsList, Bool.and_eq_true] at h
    rcases List.mem_cons.mp he with rfl | hm
    · exact h.1
    · exact ih h.2 hm

mutual

/-- A tree with numeric-or-empty integer and real texts parses to a value. -/
theorem parse_value_good : ∀ (e : XEl), goodNums e = true → ∃ v, parse_value e = .ok v
  | .mk tag text children, h => by
    have hgood := h
    simp only [goodNums, Bool.and_eq_true] at hgood
    obtain ⟨⟨hA, hB⟩, hC⟩ := hgood
    simp only [parse_value]
    by_cases h1 : (tag == "string") = true
    · rw [if_pos h1]
      exact ⟨_, rfl⟩
    · rw [if_neg h1]
      by_cases h2 : (tag == "integer") = true
      · rw [if_pos h2]
        rw [if_pos h2] at hA
        cases text with
        | none => exact ⟨_, rfl⟩
        | some t =>
          simp only [intTextGood, Bool.or_eq_true] at hA
          simp only [parseIntText]
          by_cases ht : (t == "") = true
          · rw [if_pos ht]
            exact ⟨_, rfl⟩
          · rw [if_neg ht]
            rcases hA with hA | hA
            · exact absurd hA ht
            · obtain ⟨nn, hnn⟩ := Option.isSome_iff_exists.mp hA
              rw [hnn]
              exact ⟨_, rfl⟩
      · rw [if_neg h2]
        by_cases h3 : (tag == "real") = true
        · rw [if_pos h3]
          rw [if_pos h3] at hB
          cases text with
          | none => exact ⟨_, rfl⟩
          | some t =>
            simp only [realTextGood, Bool.or_eq_true] at hB
            simp only [parseRealText]
            by_cases ht : (t == "") = true
            · rw [if_pos ht]
              exact ⟨_, rfl⟩
            · rw [if_neg ht]
              rcases hB with hB | hB
              · exact absurd hB ht
              · rw [if_pos hB]
                exact ⟨_, rfl⟩
        · rw [if_neg h3]
          by_cases h4 : (tag == "array") = true
          · rw [if_pos h4]
            obtain ⟨vs, hvs⟩ := parse_value_list_good children hC
            rw [hvs]
            exact ⟨_, rfl⟩
          · rw [if_neg h4]
            by_cases h5 : (tag == "map") = true
            · rw [if_pos h5]
              obtain ⟨it, hit⟩ := parse_item_pairs_good children [] hC
              rw [hit]
              exact ⟨_, rfl⟩
            · rw [if_neg h5]
              cases text with
              | none => exact ⟨_, rfl⟩
              | some t => exact ⟨_, rfl⟩

/-- `parse_value_good` over array children. -/
theorem parse_value_list_good : ∀ (l : List XEl), goodNumsList l = true →
    ∃ vs, parse_value_list l = .ok vs
  | [], _ => ⟨[], rfl⟩
  | e :: rest, h => by
    have h' : goodNums e = true ∧ goodNumsList rest = true := by
      simpa only [goodNumsList, Bool.and_eq_true] using h
    obtain ⟨v, hv⟩ := parse_value_good e h'.1
    obtain ⟨vs, hvs⟩ := parse_value_list_good rest h'.2
    refine ⟨v :: vs, ?_⟩
    simp only [parse_value_list]
    rw [hv, hvs]
    rfl

/-- `parse_value_good` over item pair lists. -/
theorem parse_item_pairs_good : ∀ (l : List XEl) (acc : Item), goodNumsList l = true →
    ∃ it, parse_item_pairs l acc = .ok it
  | [], acc, _ => ⟨acc, rfl⟩
  | [_], acc, _ => ⟨acc, rfl⟩
  | k :: v :: rest, acc, h => by
    have h' : goodNums k = true ∧ goodNums v = true ∧ goodNumsList rest = true := by
      simpa only [goodNumsList, Bool.and_eq_true, and_assoc] using h
    simp only [parse_item_pairs]
    cases hk : (k.tag == "key") with
    | true =>
      obtain ⟨val, hval⟩ := parse_value_good v h'.2.1
      obtain ⟨it, hit⟩ :=
        parse_item_pairs_good rest (dictInsert acc (k.text.getD "") val) h'.2.2
      refine ⟨it, ?_⟩
      rw [hval]
      exact hit
    | false =>
      obtain ⟨it, hit⟩ := parse_item_pairs_good rest acc h'.2.2
      exact ⟨it, hit⟩

end

/-- The section pair loop succeeds on numeric-text trees. -/
theorem parse_section_pairs_good : ∀ (l : List XEl) (acc : List (String × Item)),
    goodNumsList l = true → ∃ s, parse_section_pairs l acc = .ok s
  | [], acc, _ => ⟨acc, rfl⟩
  | [_], acc, _ => ⟨acc, rfl⟩
  | k :: v :: rest, acc, h => by
    have h' : goodNums k = true ∧ goodNums v = true ∧ goodNumsList rest = true := by
      simpa only [goodNumsList, Bool.and_eq_true, and_assoc] using h
    simp only [parse_section_pairs]
    cases hk : (k.tag == "key" && v.tag == "map") with
    | true =>
      obtain ⟨it, hit⟩ := parse_item_pairs_good v.children [] (goodNums_children h'.2.1)
      obtain ⟨s, hs⟩ :=
        parse_section_pairs_good rest (dictInsert acc (k.text.getD "") it) h'.2.2
      refine ⟨s, ?_⟩
      rw [hit]
      exact hs
    | false =>
      exact parse_section_pairs_good rest acc h'.2.2

/-- One top-level pair step succeeds on numeric-text trees. -/
theorem sectionUpdate_good (acc : Schema) (k v : XEl) (hv : goodNums v = true) :
    ∃ s, sectionUpdate acc k v = .ok s := by
  suffices hok : exOk (sectionUpdate acc k v) = true by
    cases he : sectionUpdate acc k v with
    | ok s => exact ⟨s, rfl⟩
    | error e => rw [he] at hok; exact Bool.noConfusion hok
  unfold sectionUpdate
  cases hk : (k.tag == "key" && v.tag == "map") with
  | false => rfl
  | true =>
    rw [if_pos rfl]
    obtain ⟨s, hs⟩ := parse_section_pairs_good v.children [] (goodNums_children hv)
    rw [hs]
    split
    · rfl
    · rfl
    · rfl
    · rfl

/-- The top-level pair loop succeeds on numeric-text trees. -/
theorem parseTop_good : ∀ (l : List XEl) (acc : Schema), goodNumsList l = true →
    ∃ s, parseTop l acc = .ok s
  | [], acc, _ => ⟨acc, rfl⟩
  | [_], acc, _ => ⟨acc, rfl⟩
  | k :: v :: rest, acc, h => by
    have h' : goodNums k = true ∧ goodNums v = true ∧ goodNumsList rest = true := by
      simpa only [goodNumsList, Bool.and_eq_true, and_assoc] using h
    obtain ⟨acc', hacc⟩ := sectionUpdate_good acc k v h'.2.1
    obtain ⟨s, hs⟩ := parseTop_good rest acc' h'.2.2
    refine ⟨s, ?_⟩
    simp only [parseTop]
    rw [hacc]
    exact hs

/-- C3 (amended): malformed XML is not the only parse error — an `integer`
or `real` element with nonempty non-numeric text raises a `ValueError` from
the coercion (see the counterexample); on every well-formed tree whose
`integer` and `real` texts are empty or numeric, `parse_llsd_xml` cannot
fail. -/
theorem parseTotalOnNumericTexts (t : XEl) (h : goodNums t = true) :
    ∃ s, parse_llsd_xml t = .ok s := by
  unfold parse_llsd_xml
  cases hf : t.children.find? (fun c => c.tag == "map") with
  | none => exact ⟨_, rfl⟩
  | some m =>
    have hm : m ∈ t.children := List.mem_of_find?_eq_some hf
    have hgm : goodNums m = true := goodNumsList_mem (goodNums_children h) hm
    exact parseTop_good m.children ⟨[], [], []⟩ (goodNums_children hgm)

/-- C3 counterexample: a well-formed document tree whose `integer` element
holds the text `abc` makes the parse fail (Python `int` raises
`ValueError`), so a malformed document is not the only error the parser can
produce. -/
theorem parseFailsOnBadIntegerText :
    parse_llsd_xml badIntTree = .error .valueError :=
  rfl

/-- C3 witness: a concrete well-formed tree with numeric texts parses
successfully. -/
theorem parseTotalOnNumericTextsWitness :
    goodNums goodTree = true ∧ ∃ s, parse_llsd_xml goodTree = .ok s :=
  ⟨rfl, parseTotalOnNumericTexts goodTree rfl⟩
